import Mathlib

/-
Verification of the CUA (Computer-Using Agent) action-execution loop of
web-eval-agent, shallowly embedded from
src/webEvalAgent/src/cua_integration.py (class OpenAICUA) with the
divergent request builder of src/webEvalAgent/src/openai_cua.py modelled
separately where a claim compares the two.

Modelling conventions:
- Python dict payloads are modelled by a small Json AST built exactly as the
  source builds its dict literals (same keys, same order).
- The remote reasoning service is an oracle, a function from the request
  index (0 = the initial request) to either a parsed response or a transport
  or HTTP error; resp.raise_for_status precedes resp.json in the source, so
  a failing response carries no parsed content.
- The browser page is an environment of fallible primitives; send_log and
  every device operation are recorded in an ordered event trace.
- A Python exception that escapes run_task is Except.error; both normal
  returns of run_task, the success dict and the except-handler dict, are
  Except.ok.
-/

namespace WebEvalAgent

/-- JSON values, for the request payloads the loop sends. -/
inductive Json where
  | null : Json
  | str : String → Json
  | num : Int → Json
  | arr : List Json → Json
  | obj : List (String × Json) → Json

/-- Lookup of a top-level key in a JSON object (None on non-objects). -/
def Json.getKey : Json → String → Option Json
  | .obj kvs, k => kvs.lookup k
  | _, _ => none

/-- Rendering of an optional string the way a Python f-string renders it:
None prints as the four characters None. -/
def pyOptStr : Option String → String
  | none => "None"
  | some s => s

def jsonOfOptStr : Option String → Json
  | none => Json.null
  | some s => Json.str s

/-- Device primitives issued by execute_action against the Playwright page. -/
inductive Prim where
  | click : Int → Int → String → Prim
  | typeText : String → Prim
  | press : String → Prim
  | mouseMove : Int → Int → Prim
  | evaluate : String → Prim

/-- The action dictionary received from the service; every field is read
with dict.get in the source, so every field is optional. -/
structure ActionDict where
  type : Option String := none
  x : Option Int := none
  y : Option Int := none
  button : Option String := none
  text : Option String := none
  keys : Option (List String) := none
  scrollX : Option Int := none
  scrollY : Option Int := none

/-- Python truthiness of the action dict: an empty dict is falsy, so the
source line if action only executes a nonempty dict. -/
def ActionDict.isTruthy (a : ActionDict) : Bool :=
  a.type.isSome || a.x.isSome || a.y.isSome || a.button.isSome ||
  a.text.isSome || a.keys.isSome || a.scrollX.isSome || a.scrollY.isSome

/-- A pending_safety_checks entry; the source reads check.get with a
default message. -/
structure SafetyCheck where
  message : Option String := none

/-- One entry of response.output. The source dispatches on item.get of the
type key and reads the other keys with dict.get. reasoning summaries are
kept as Option String per entry: some t stands for a dict entry carrying a
text key, none for anything else. -/
structure OutputItem where
  type : Option String := none
  summary : List (Option String) := []
  text : Option String := none
  action : Option ActionDict := none
  call_id : Option String := none
  pending_safety_checks : List SafetyCheck := []

/-- A parsed 2xx response: response.get of id and output. -/
structure Response where
  id : Option String := none
  output : List OutputItem := []

/-- CUAConfig of cua_integration.py with its dataclass defaults. -/
structure CUAConfig where
  model : String := "computer-use-preview"
  display_width : Int := 1024
  display_height : Int := 768
  environment : String := "browser"
  reasoning_summary : String := "concise"
  truncation : String := "auto"
  max_iterations : Nat := 50
  timeout_seconds : Nat := 300

/-- One element of the screenshots history list: the dict literal with keys
step, screenshot and action appended in run_task. -/
structure ScreenshotEntry where
  step : Nat
  screenshot : String
  action : Option ActionDict

/-- CUAState of cua_integration.py (the page and CDP session handles are
modelled in Env below). -/
structure CUAState where
  previous_response_id : Option String := none
  screenshots : List ScreenshotEntry := []
  completed : Bool := false
  error : Option String := none
  iteration_count : Nat := 0

/-- The dictionary returned by run_task. -/
structure ResultDict where
  result : String
  screenshots : List ScreenshotEntry
  iterations : Nat
  completed : Bool
  error : Option String

/-- The browser environment: whether initialize_browser ran, the outcome of
page.goto (some e means the awaited call raised e), the screenshot produced
by the n-th capture (or the exception it raised), the page url read when
the n-th screenshot is attached to a request, and the outcome of each
device primitive. -/
structure Env where
  pageInitialized : Bool := true
  goto : String → Option String := fun _ => none
  capture : Nat → Except String String := fun n => Except.ok (toString n)
  currentUrl : Nat → String := fun _ => "about:blank"
  primFail : Prim → Option String := fun _ => none

/-- Observable events of one invocation, in order: send_log messages,
navigation, device primitives, the instrumentation marker emitted when
execute_action returns without raising, the fixed sleeps, screenshot
captures, outbound requests with their payload, and the entry into each
loop iteration (the iteration_count increment). -/
inductive Event where
  | log : String → Event
  | navigated : String → Event
  | prim : Prim → Event
  | actionExecuted : ActionDict → Event
  | slept : Nat → Event
  | captured : Nat → Event
  | requestSent : Nat → Json → Event
  | iterationStarted : Nat → Event

/-- Key-name canonicalisation of the keypress branch of execute_action. -/
def mapKeyName (key : String) : String :=
  if key.toUpper = "ENTER" then ("Enter")
  else if key.toUpper = "SPACE" then (" ")
  else if key.toUpper = "TAB" then ("Tab")
  else if key.toUpper = "ESCAPE" then ("Escape")
  else key

/-- Sequential execution of device primitives; the first one the page
rejects raises, and primitives after it never run. -/
def runPrims (env : Env) : List Prim → Except String Unit × List Event
  | [] => (Except.ok (), [])
  | p :: ps =>
    match env.primFail p with
    | some e => (Except.error e, [])
    | none =>
      let r := runPrims env ps
      (r.1, Event.prim p :: r.2)

/-- Shared tail of every device branch of execute_action: run the branch
primitives, then send_log the success message; on a raise, send_log the
wrapping message and re-raise the original exception (the bare raise in
the source). -/
def runActionPrims (env : Env) (t : Option String) (prims : List Prim)
    (successLog : String) : Except String Unit × List Event :=
  let r := runPrims env prims
  match r.1 with
  | Except.ok _ => (Except.ok (), r.2 ++ [Event.log successLog])
  | Except.error e =>
      (Except.error e,
        r.2 ++ [Event.log ("Failed to execute " ++ pyOptStr t ++ " action: " ++ e)])

/-- The Python slice text up to 50 characters plus ellipsis marker used by
the type branch log message. -/
def pyTruncate (text : String) : String :=
  text.take 50 ++ (if text.length > 50 then ("...") else (""))

/-- OpenAICUA.execute_action of cua_integration.py: dispatch on
action.get of the type key, reading every parameter with a dict.get
default, and treating an unrecognised type as a log-only no-op. -/
def execute_action (env : Env) (action : ActionDict) :
    Except String Unit × List Event :=
  let t := action.type
  if t = some ("click") then
    let x := action.x.getD 0
    let y := action.y.getD 0
    let button := action.button.getD ("left")
    runActionPrims env t [Prim.click x y button]
      ("Clicked at (" ++ toString x ++ ", " ++ toString y ++ ") with " ++
        button ++ " button")
  else if t = some ("type") then
    let text := action.text.getD ("")
    runActionPrims env t [Prim.typeText text] ("Typed: " ++ pyTruncate text)
  else if t = some ("keypress") then
    let keys := action.keys.getD []
    runActionPrims env t (keys.map (fun k => Prim.press (mapKeyName k)))
      ("Pressed keys: " ++ String.intercalate (", ") keys)
  else if t = some ("scroll") then
    let x := action.x.getD 0
    let y := action.y.getD 0
    let scroll_x := action.scrollX.getD 0
    let scroll_y := action.scrollY.getD 0
    runActionPrims env t
      [Prim.mouseMove x y,
       Prim.evaluate ("window.scrollBy(" ++ toString scroll_x ++ ", " ++
         toString scroll_y ++ ")")]
      ("Scrolled by (" ++ toString scroll_x ++ ", " ++ toString scroll_y ++
        ") at (" ++ toString x ++ ", " ++ toString y ++ ")")
  else if t = some ("wait") then
    (Except.ok (), [Event.slept 2, Event.log ("Waited for page changes")])
  else if t = some ("screenshot") then
    (Except.ok (), [Event.log ("Screenshot requested")])
  else
    (Except.ok (), [Event.log ("Unknown action type: " ++ pyOptStr t)])

/-- The tools list of both request payloads of cua_integration.run_task. -/
def toolsJson (cfg : CUAConfig) : Json :=
  Json.arr [Json.obj [
    ("type", Json.str ("computer_use_preview")),
    ("display_width", Json.num cfg.display_width),
    ("display_height", Json.num cfg.display_height),
    ("environment", Json.str cfg.environment)]]

/-- The initial request_data dict of cua_integration.run_task. -/
def initialRequestData (cfg : CUAConfig) (task screenshot : String) : Json :=
  Json.obj [
    ("model", Json.str cfg.model),
    ("tools", toolsJson cfg),
    ("input", Json.arr [Json.obj [
      ("role", Json.str ("user")),
      ("content", Json.arr [
        Json.obj [("type", Json.str ("input_text")), ("text", Json.str task)],
        Json.obj [("type", Json.str ("input_image")),
          ("image_url", Json.str ("data:image/jpeg;base64," ++ screenshot))]])]]),
    ("reasoning", Json.obj [("summary", Json.str cfg.reasoning_summary)]),
    ("truncation", Json.str cfg.truncation)]

/-- The follow-up request_data dict that cua_integration.run_task builds
after executing a computer_call: note that its single input item carries
only the keys call_id, type, output and current_url. -/
def nextRequestData (cfg : CUAConfig) (previousResponseId : Option String)
    (callId : Option String) (screenshot url : String) : Json :=
  Json.obj [
    ("model", Json.str cfg.model),
    ("previous_response_id", jsonOfOptStr previousResponseId),
    ("tools", toolsJson cfg),
    ("input", Json.arr [Json.obj [
      ("call_id", jsonOfOptStr callId),
      ("type", Json.str ("computer_call_output")),
      ("output", Json.obj [("type", Json.str ("input_image")),
        ("image_url", Json.str ("data:image/jpeg;base64," ++ screenshot))]),
      ("current_url", Json.str url)]]),
    ("truncation", Json.str cfg.truncation)]

/-- Serialisation of a pending safety check as openai_cua.py forwards it. -/
def safetyCheckJson (c : SafetyCheck) : Json :=
  Json.obj [("message", jsonOfOptStr c.message)]

/-- The follow-up request_data dict of the second implementation,
OpenAICUA.run_task in openai_cua.py (lines 246-266): png screenshots, tool
type computer-preview, and the acknowledged_safety_checks key carrying the
pending checks of the executed call. -/
def nextRequestDataAck (previousResponseId : String) (callId : Option String)
    (checks : List SafetyCheck) (screenshot url : String) : Json :=
  Json.obj [
    ("model", Json.str ("computer-use-preview")),
    ("previous_response_id", Json.str previousResponseId),
    ("tools", Json.arr [Json.obj [
      ("type", Json.str ("computer-preview")),
      ("display_width", Json.num 1024),
      ("display_height", Json.num 768),
      ("environment", Json.str ("browser"))]]),
    ("input", Json.arr [Json.obj [
      ("call_id", jsonOfOptStr callId),
      ("type", Json.str ("computer_call_output")),
      ("acknowledged_safety_checks", Json.arr (checks.map safetyCheckJson)),
      ("output", Json.obj [("type", Json.str ("input_image")),
        ("image_url", Json.str ("data:image/png;base64," ++ screenshot))]),
      ("current_url", Json.str url)]]),
    ("truncation", Json.str ("auto"))]

/-- OpenAICUA.capture_screenshot: on success the encoded image, on a raise
the send_log of the failure followed by the re-raised exception. -/
def capture_screenshot (env : Env) (idx : Nat) :
    Except String String × List Event :=
  match env.capture idx with
  | Except.ok s => (Except.ok s, [Event.captured idx])
  | Except.error e =>
      (Except.error e, [Event.log ("Failed to capture screenshot: " ++ e)])

/-- The send_log calls of the output-item scan of run_task (lines 250-266):
reasoning summaries and text items are logged, computer_call items are
collected separately. -/
def outputItemLogs (item : OutputItem) : List Event :=
  if item.type = some ("reasoning") then
    item.summary.filterMap
      (fun s => s.map (fun u => Event.log ("CUA reasoning: " ++ u)))
  else if item.type = some ("computer_call") then []
  else if item.type = some ("text") then
    match item.text with
    | some u => [Event.log ("CUA message: " ++ u)]
    | none => []
  else []

/-- The body of the for computer_call loop of run_task (lines 275-331) for
one computer_call: log each pending safety check, execute the action when
the action dict is truthy, sleep the settle second, capture and append the
screenshot, send the follow-up request, and adopt the new response id. Any
raise aborts with the state mutated so far; the execution step
(the if action guard of line 285, under Python truthiness) is split out as
execPhase, with the instrumentation marker appended on success. -/
def execPhase (env : Env) (action : Option ActionDict) :
    Except String Unit × List Event :=
  match action with
  | some a =>
    if a.isTruthy then
      match execute_action env a with
      | (Except.ok _, evs) => (Except.ok (), evs ++ [Event.actionExecuted a])
      | (Except.error e, evs) => (Except.error e, evs)
    else (Except.ok (), [])
  | none => (Except.ok (), [])

/-- The send_log lines of the pending_safety_checks scan (lines 276-281). -/
def checkLogsOf (call : OutputItem) : List Event :=
  call.pending_safety_checks.map
    (fun c => Event.log ("Safety check: " ++ c.message.getD ("Unknown check")))

def processCall (cfg : CUAConfig) (env : Env)
    (responses : Nat → Except String Response) (call : OutputItem)
    (st : CUAState) (p q : Nat) :
    CUAState × Except String (Response × Nat × Nat) × List Event :=
  let checkLogs := checkLogsOf call
  match execPhase env call.action with
  | (Except.error e, evs) => (st, Except.error e, checkLogs ++ evs)
  | (Except.ok _, evs) =>
    let evs1 := checkLogs ++ evs ++ [Event.slept 1]
    match capture_screenshot env p with
    | (Except.error e, cevs) => (st, Except.error e, evs1 ++ cevs)
    | (Except.ok shot, cevs) =>
      let entry : ScreenshotEntry :=
        { step := st.iteration_count, screenshot := shot, action := call.action }
      let st1 := { st with screenshots := st.screenshots ++ [entry] }
      let payload := nextRequestData cfg st1.previous_response_id call.call_id
        shot (env.currentUrl p)
      let evs2 := evs1 ++ cevs ++ [Event.requestSent q payload]
      match responses q with
      | Except.error m => (st1, Except.error m, evs2)
      | Except.ok r =>
        ({ st1 with previous_response_id := r.id },
         Except.ok (r, p + 1, q + 1), evs2)

/-- The for computer_call loop over the collected calls of one response;
the response and index counters thread through, and a raise stops the
remaining calls. -/
def processCallsGo (cfg : CUAConfig) (env : Env)
    (responses : Nat → Except String Response) (call : OutputItem) :
    List OutputItem → CUAState → Nat → Nat →
      CUAState × Except String (Response × Nat × Nat) × List Event
  | rest, st, p, q =>
    match processCall cfg env responses call st p q with
    | (st1, Except.error m, evs) => (st1, Except.error m, evs)
    | (st1, Except.ok (r, p1, q1), evs) =>
      match rest with
      | [] => (st1, Except.ok (r, p1, q1), evs)
      | c2 :: cs =>
        let rec2 := processCallsGo cfg env responses c2 cs st1 p1 q1
        (rec2.1, rec2.2.1, evs ++ rec2.2.2)

/-- The while loop of run_task (lines 245-333). The fuel argument is
max_iterations minus iteration_count, so the guard iteration_count less
than max_iterations is the fuel-zero case; the Option String component is
the exception caught by the surrounding except block, if any. -/
def loopGo (cfg : CUAConfig) (env : Env)
    (responses : Nat → Except String Response) :
    Nat → CUAState → Response → Nat → Nat →
      (CUAState × Option String) × List Event
  | 0, st, _, _, _ => ((st, none), [])
  | fuel + 1, st, resp, p, q =>
    if st.completed then ((st, none), []) else
    let st1 := { st with iteration_count := st.iteration_count + 1 }
    let evs0 := Event.iterationStarted st1.iteration_count ::
      (resp.output.map outputItemLogs).flatten
    let calls := resp.output.filter
      (fun item => item.type == some ("computer_call"))
    match calls with
    | [] =>
      (({ st1 with completed := true }, none),
       evs0 ++ [Event.log ("CUA task completed - no more actions")])
    | c :: cs =>
      match processCallsGo cfg env responses c cs st1 p q with
      | (st2, Except.error m, evs) => ((st2, some m), evs0 ++ evs)
      | (st2, Except.ok (r, p1, q1), evs) =>
        let nxt := loopGo cfg env responses fuel st2 r p1 q1
        (nxt.1, evs0 ++ evs ++ nxt.2)

/-- Lines 182-185 of run_task: the optional initial navigation, which sits
before the try block, so a goto raise escapes run_task unlogged. -/
def navPhase (env : Env) : Option String → Except String (List Event)
  | none => Except.ok []
  | some url =>
    match env.goto url with
    | some e => Except.error e
    | none =>
      Except.ok [Event.navigated url, Event.log ("Navigated to " ++ url)]

/-- run_task up to but excluding the construction of the returned dict:
Except.error is a Python exception escaping run_task (page not
initialized, a goto raise, or a raise of the initial screenshot capture,
all of which sit before the try block), Except.ok pairs the final CUAState
with the exception caught by the except block, if any. -/
def cuaRunOutcome (cfg : CUAConfig) (env : Env)
    (responses : Nat → Except String Response) (task : String)
    (initial_url : Option String) :
    Except String (CUAState × Option String) × List Event :=
  if env.pageInitialized = false then
    (Except.error ("Browser not initialized. Call initialize_browser first."), [])
  else
    match navPhase env initial_url with
    | Except.error e => (Except.error e, [])
    | Except.ok navEvs =>
      match capture_screenshot env 0 with
      | (Except.error e, cevs) => (Except.error e, navEvs ++ cevs)
      | (Except.ok shot0, cevs) =>
        let evs1 := navEvs ++ cevs ++
          [Event.log ("Starting CUA task: " ++ task),
           Event.requestSent 0 (initialRequestData cfg task shot0)]
        match responses 0 with
        | Except.error m => (Except.ok ({}, some m), evs1)
        | Except.ok r0 =>
          let st0 : CUAState := { previous_response_id := r0.id }
          let lp := loopGo cfg env responses cfg.max_iterations st0 r0 1 1
          (Except.ok lp.1, evs1 ++ lp.2)

/-- OpenAICUA.run_task of cua_integration.py: the loop followed by the
construction of the returned dict, the success dict on a normal loop exit
and the except-handler dict on a caught exception (the source assigns
state.error and logs the failure there). -/
def run_task (cfg : CUAConfig) (env : Env)
    (responses : Nat → Except String Response) (task : String)
    (initial_url : Option String) : Except String ResultDict × List Event :=
  match cuaRunOutcome cfg env responses task initial_url with
  | (Except.error m, evs) => (Except.error m, evs)
  | (Except.ok (st, some m), evs) =>
    let d : ResultDict :=
      { result := "Error: " ++ m
        screenshots := st.screenshots
        iterations := st.iteration_count
        completed := false
        error := some m }
    (Except.ok d, evs ++ [Event.log ("CUA task failed: " ++ m)])
  | (Except.ok (st, none), evs) =>
    let d : ResultDict :=
      { result :=
          if st.completed then ("Task completed successfully")
          else ("Task stopped after " ++ toString st.iteration_count ++ " iterations")
        screenshots := st.screenshots
        iterations := st.iteration_count
        completed := st.completed
        error := st.error }
    (Except.ok d, evs)

/-- The actions whose execute_action call returned without raising, in
trace order. -/
def tracedExecuted (evs : List Event) : List ActionDict :=
  evs.filterMap (fun e => match e with
    | Event.actionExecuted a => some a
    | _ => none)

/-- The action a history entry corresponds to, when that action was a
truthy dict and hence was executed. -/
def entryExec (e : ScreenshotEntry) : Option ActionDict :=
  match e.action with
  | some a => if a.isTruthy then some a else none
  | none => none

/-- How many loop iterations a trace records. -/
def countIter (evs : List Event) : Nat :=
  (evs.filter (fun e => match e with
    | Event.iterationStarted _ => true
    | _ => false)).length

/-- The requests a trace records, indexed. -/
def sentPayloads (evs : List Event) : List (Nat × Json) :=
  evs.filterMap (fun e => match e with
    | Event.requestSent i p => some (i, p)
    | _ => none)

def isRequestEvent : Event → Bool
  | Event.requestSent _ _ => true
  | _ => false

def isCapturedEvent : Event → Bool
  | Event.captured _ => true
  | _ => false

/-- Whether a trace contains a given send_log message. -/
def hasLog (evs : List Event) (m : String) : Bool :=
  evs.any (fun e => match e with
    | Event.log u => u = m
    | _ => false)

/-- The acknowledged_safety_checks value of the single input item of a
request payload, if any. -/
def inputItemAck (payload : Json) : Option Json :=
  match payload.getKey ("input") with
  | some (Json.arr [item]) => item.getKey ("acknowledged_safety_checks")
  | _ => none

/-- The action types the elif chain of execute_action recognises. -/
def recognizedActionTypes : List String :=
  ["click", "type", "keypress", "scroll", "wait", "screenshot"]

/-- exactly one computer_call item among the output items. -/
def oneCall (r : Response) : Prop :=
  ∃ c, r.output.filter (fun item => item.type == some ("computer_call")) = [c]

/-- a 2xx response carrying exactly one computer_call item. -/
def okOneCall (x : Except String Response) : Prop :=
  ∃ r, x = Except.ok r ∧ oneCall r

/-- every screenshot capture of the environment succeeds. -/
def capturesOk (env : Env) : Prop :=
  ∀ n, ∃ s, env.capture n = Except.ok s

/- Concrete fixtures used by witnesses and counterexamples. -/

def cfgD : CUAConfig := {}

def cfg0 : CUAConfig := { max_iterations := 0 }

def cfg3 : CUAConfig := { max_iterations := 3 }

def benignEnv : Env := {}

def navFailEnv : Env := { goto := fun _ => some ("net::ERR_CONNECTION_REFUSED") }

def clickAction : ActionDict :=
  { type := some ("click"), x := some 100, y := some 200 }

def waitAction : ActionDict := { type := some ("wait") }

def callItem (a : ActionDict) : OutputItem :=
  { type := some ("computer_call"), action := some a, call_id := some ("c1") }

def respOneCall (a : ActionDict) : Response :=
  { id := some ("r1"), output := [callItem a] }

def respNoCalls : Response :=
  { id := some ("r2"), output := [{ type := some ("text"), text := some ("Logged in") }] }

def oracleClick : Nat → Except String Response := fun n =>
  if n = 0 then Except.ok (respOneCall clickAction) else Except.ok respNoCalls

def oracleNoCalls : Nat → Except String Response := fun _ => Except.ok respNoCalls

def oracleWait : Nat → Except String Response := fun _ =>
  Except.ok (respOneCall waitAction)

def oracleFailFirst : Nat → Except String Response := fun _ =>
  Except.error ("HTTP 502")

def oracleUnknown (a : ActionDict) : Nat → Except String Response := fun n =>
  if n = 0 then Except.ok (respOneCall a) else Except.ok respNoCalls

def checkedCall : OutputItem :=
  { type := some ("computer_call")
    action := some clickAction
    call_id := some ("c1")
    pending_safety_checks := [{ message := some ("malicious_instructions") }] }

def oracleChecked : Nat → Except String Response := fun n =>
  if n = 0 then Except.ok { id := some ("r1"), output := [checkedCall] }
  else Except.ok respNoCalls

/- Basic trace lemmas. -/

theorem tracedExecuted_append (a b : List Event) :
    tracedExecuted (a ++ b) = tracedExecuted a ++ tracedExecuted b := by
  simp [tracedExecuted, List.filterMap_append]

theorem countIter_append (a b : List Event) :
    countIter (a ++ b) = countIter a + countIter b := by
  simp [countIter, List.filter_append]

theorem runPrims_traced (env : Env) (ps : List Prim) :
    tracedExecuted (runPrims env ps).2 = [] := by
  induction ps with
  | nil => simp [runPrims, tracedExecuted]
  | cons p ps ih =>
    simp only [runPrims]
    cases env.primFail p with
    | none => simpa [tracedExecuted] using ih
    | some e => simp [tracedExecuted]

theorem runPrims_countIter (env : Env) (ps : List Prim) :
    countIter (runPrims env ps).2 = 0 := by
  induction ps with
  | nil => simp [runPrims, countIter]
  | cons p ps ih =>
    simp only [runPrims]
    cases env.primFail p with
    | none => simpa [countIter] using ih
    | some e => simp [countIter]

theorem runActionPrims_traced (env : Env) (t : Option String) (ps : List Prim)
    (s : String) : tracedExecuted (runActionPrims env t ps s).2 = [] := by
  unfold runActionPrims
  cases h : (runPrims env ps).1 <;>
    simp only [h, tracedExecuted_append, runPrims_traced env ps] <;>
    simp [tracedExecuted]

theorem runActionPrims_countIter (env : Env) (t : Option String) (ps : List Prim)
    (s : String) : countIter (runActionPrims env t ps s).2 = 0 := by
  unfold runActionPrims
  cases h : (runPrims env ps).1 <;>
    simp only [h, countIter_append, runPrims_countIter env ps] <;>
    simp [countIter]

theorem execute_action_traced (env : Env) (a : ActionDict) :
    tracedExecuted (execute_action env a).2 = [] := by
  simp only [execute_action]
  split
  · exact runActionPrims_traced ..
  · split
    · exact runActionPrims_traced ..
    · split
      · exact runActionPrims_traced ..
      · split
        · exact runActionPrims_traced ..
        · split
          · simp [tracedExecuted]
          · split
            · simp [tracedExecuted]
            · simp [tracedExecuted]

theorem execute_action_countIter (env : Env) (a : ActionDict) :
    countIter (execute_action env a).2 = 0 := by
  simp only [execute_action]
  split
  · exact runActionPrims_countIter ..
  · split
    · exact runActionPrims_countIter ..
    · split
      · exact runActionPrims_countIter ..
      · split
        · exact runActionPrims_countIter ..
        · split
          · simp [countIter]
          · split
            · simp [countIter]
            · simp [countIter]

theorem summaryLogs_traced (l : List (Option String)) :
    tracedExecuted (l.filterMap
      (fun s => s.map (fun u => Event.log ("CUA reasoning: " ++ u)))) = [] := by
  induction l with
  | nil => simp [tracedExecuted]
  | cons s l ih => cases s <;> simpa [tracedExecuted] using ih

theorem summaryLogs_countIter (l : List (Option String)) :
    countIter (l.filterMap
      (fun s => s.map (fun u => Event.log ("CUA reasoning: " ++ u)))) = 0 := by
  induction l with
  | nil => simp [countIter]
  | cons s l ih => cases s <;> simpa [countIter] using ih

theorem outputItemLogs_traced (item : OutputItem) :
    tracedExecuted (outputItemLogs item) = [] := by
  unfold outputItemLogs
  split
  · exact summaryLogs_traced _
  · split
    · simp [tracedExecuted]
    · split
      · split <;> simp [tracedExecuted]
      · simp [tracedExecuted]

theorem outputItemLogs_countIter (item : OutputItem) :
    countIter (outputItemLogs item) = 0 := by
  unfold outputItemLogs
  split
  · exact summaryLogs_countIter _
  · split
    · simp [countIter]
    · split
      · split <;> simp [countIter]
      · simp [countIter]

theorem respLogs_traced (items : List OutputItem) :
    tracedExecuted ((items.map outputItemLogs).flatten) = [] := by
  induction items with
  | nil => simp [tracedExecuted]
  | cons it items ih =>
    simp only [List.map_cons, List.flatten_cons, tracedExecuted_append,
      outputItemLogs_traced, ih]
    simp

theorem respLogs_countIter (items : List OutputItem) :
    countIter ((items.map outputItemLogs).flatten) = 0 := by
  induction items with
  | nil => simp [countIter]
  | cons it items ih =>
    simp only [List.map_cons, List.flatten_cons, countIter_append,
      outputItemLogs_countIter, ih]

theorem countIter_map_log {α : Type} (l : List α) (f : α → String) :
    countIter (l.map (fun c => Event.log (f c))) = 0 := by
  induction l with
  | nil => simp [countIter]
  | cons c l ih => simp [countIter]

theorem tracedExecuted_map_log {α : Type} (l : List α) (f : α → String) :
    tracedExecuted (l.map (fun c => Event.log (f c))) = [] := by
  induction l with
  | nil => simp [tracedExecuted]
  | cons c l ih => simp [tracedExecuted]

theorem execPhase_countIter (env : Env) (action : Option ActionDict) :
    countIter (execPhase env action).2 = 0 := by
  unfold execPhase
  rcases action with _ | a
  · simp [countIter]
  · rcases hE : execute_action env a with ⟨r, evs⟩
    have h0 : countIter evs = 0 := by
      simpa [hE] using execute_action_countIter env a
    by_cases ht : a.isTruthy = true <;>
      cases r <;> simp_all [countIter_append, countIter]

theorem checkLogsOf_countIter (call : OutputItem) :
    countIter (checkLogsOf call) = 0 := by
  unfold checkLogsOf
  exact countIter_map_log ..

theorem checkLogsOf_traced (call : OutputItem) :
    tracedExecuted (checkLogsOf call) = [] := by
  unfold checkLogsOf
  exact tracedExecuted_map_log ..

theorem capture_screenshot_countIter (env : Env) (idx : Nat) :
    countIter (capture_screenshot env idx).2 = 0 := by
  unfold capture_screenshot
  cases env.capture idx <;> simp [countIter]

theorem capture_screenshot_traced (env : Env) (idx : Nat) :
    tracedExecuted (capture_screenshot env idx).2 = [] := by
  unfold capture_screenshot
  cases env.capture idx <;> simp [tracedExecuted]

/-- Processing one computer_call never touches the iteration counter, the
completed flag or the stored error. -/
theorem processCall_fields (cfg : CUAConfig) (env : Env)
    (responses : Nat → Except String Response) (call : OutputItem)
    (st : CUAState) (p q : Nat) :
    (processCall cfg env responses call st p q).1.iteration_count =
      st.iteration_count ∧
    (processCall cfg env responses call st p q).1.completed = st.completed ∧
    (processCall cfg env responses call st p q).1.error = st.error := by
  unfold processCall
  rcases hE : execPhase env call.action with ⟨re, evs⟩
  cases re with
  | error e => simp
  | ok u =>
    rcases hC : capture_screenshot env p with ⟨rc, cevs⟩
    cases rc with
    | error e => simp
    | ok shot =>
      cases hR : responses q <;> simp

/-- Processing one computer_call records no loop-iteration event. -/
theorem processCall_countIter (cfg : CUAConfig) (env : Env)
    (responses : Nat → Except String Response) (call : OutputItem)
    (st : CUAState) (p q : Nat) :
    countIter (processCall cfg env responses call st p q).2.2 = 0 := by
  have hex := execPhase_countIter env call.action
  have hcap := capture_screenshot_countIter env p
  unfold processCall
  rcases hE : execPhase env call.action with ⟨re, evs⟩
  rw [hE] at hex
  have hcl := checkLogsOf_countIter call
  cases re with
  | error e => simp_all [countIter_append, countIter]
  | ok u =>
    rcases hC : capture_screenshot env p with ⟨rc, cevs⟩
    rw [hC] at hcap
    cases rc with
    | error e => simp_all [countIter_append, countIter]
    | ok shot =>
      cases hR : responses q <;> simp_all [countIter_append, countIter]

/-- The for loop over the computer_calls of one response never touches the
iteration counter, the completed flag or the stored error, and records no
loop-iteration event. -/
theorem processCallsGo_fields (cfg : CUAConfig) (env : Env)
    (responses : Nat → Except String Response) :
    ∀ (rest : List OutputItem) (call : OutputItem) (st : CUAState) (p q : Nat),
      (processCallsGo cfg env responses call rest st p q).1.iteration_count =
        st.iteration_count ∧
      (processCallsGo cfg env responses call rest st p q).1.completed =
        st.completed ∧
      (processCallsGo cfg env responses call rest st p q).1.error = st.error ∧
      countIter (processCallsGo cfg env responses call rest st p q).2.2 = 0 := by
  intro rest
  induction rest with
  | nil =>
    intro call st p q
    have hf := processCall_fields cfg env responses call st p q
    have hc := processCall_countIter cfg env responses call st p q
    unfold processCallsGo
    rcases hPC : processCall cfg env responses call st p q with ⟨st1, out1, evs1⟩
    rw [hPC] at hf hc
    rcases out1 with m | ⟨r, p1, q1⟩ <;> simp_all
  | cons c2 cs ih =>
    intro call st p q
    have hf := processCall_fields cfg env responses call st p q
    have hc := processCall_countIter cfg env responses call st p q
    unfold processCallsGo
    rcases hPC : processCall cfg env responses call st p q with ⟨st1, out1, evs1⟩
    rw [hPC] at hf hc
    rcases out1 with m | ⟨r, p1, q1⟩
    · simp_all
    · have hrec := ih c2 st1 p1 q1
      simp_all [countIter_append]

theorem countIter_iterStarted_cons (n : Nat) (evs : List Event) :
    countIter (Event.iterationStarted n :: evs) = countIter evs + 1 := by
  simp [countIter, List.filter]

theorem countIter_singleton_log (m : String) :
    countIter [Event.log m] = 0 := by
  simp [countIter]

/-- The while loop advances the iteration counter by at most the remaining
fuel, records at most that many iteration events, and never writes the
stored error. -/
theorem loopGo_bounds (cfg : CUAConfig) (env : Env)
    (responses : Nat → Except String Response) :
    ∀ (fuel : Nat) (st : CUAState) (r : Response) (p q : Nat),
      ((loopGo cfg env responses fuel st r p q).1.1).iteration_count ≤
        st.iteration_count + fuel ∧
      countIter (loopGo cfg env responses fuel st r p q).2 ≤ fuel ∧
      ((loopGo cfg env responses fuel st r p q).1.1).error = st.error := by
  intro fuel
  induction fuel with
  | zero => intro st r p q; simp [loopGo, countIter]
  | succ fuel ih =>
    intro st r p q
    unfold loopGo
    by_cases hc : st.completed = true
    · simp [hc, countIter]
    · rw [if_neg hc]
      rcases hcalls : r.output.filter
          (fun item => item.type == some ("computer_call")) with _ | ⟨c, cs⟩
      · simp only [hcalls]
        refine ⟨?_, ?_, ?_⟩
        · show st.iteration_count + 1 ≤ st.iteration_count + (fuel + 1)
          omega
        · show countIter ((Event.iterationStarted (st.iteration_count + 1) ::
            (r.output.map outputItemLogs).flatten) ++
            [Event.log ("CUA task completed - no more actions")]) ≤ fuel + 1
          simp only [countIter_append, countIter_iterStarted_cons,
            respLogs_countIter, countIter_singleton_log]
          omega
        · trivial
      · simp only [hcalls]
        have hP := processCallsGo_fields cfg env responses cs c
          { st with iteration_count := st.iteration_count + 1 } p q
        rcases hPG : processCallsGo cfg env responses c cs
            { st with iteration_count := st.iteration_count + 1 } p q
          with ⟨st2, out2, evs2⟩
        rw [hPG] at hP
        obtain ⟨h1, h2, h3, h4⟩ := hP
        have h1x : st2.iteration_count = st.iteration_count + 1 := h1
        have h3x : st2.error = st.error := h3
        rcases out2 with m | ⟨r2, p2, q2⟩
        · simp only [hPG]
          refine ⟨?_, ?_, ?_⟩
          · show st2.iteration_count ≤ st.iteration_count + (fuel + 1)
            omega
          · show countIter ((Event.iterationStarted (st.iteration_count + 1) ::
              (r.output.map outputItemLogs).flatten) ++ evs2) ≤ fuel + 1
            simp only [countIter_append, countIter_iterStarted_cons,
              respLogs_countIter, h4]
            omega
          · exact h3x
        · obtain ⟨hr1, hr2, hr3⟩ := ih st2 r2 p2 q2
          simp only [hPG]
          refine ⟨?_, ?_, ?_⟩
          · show (loopGo cfg env responses fuel st2 r2 p2 q2).1.1.iteration_count ≤
              st.iteration_count + (fuel + 1)
            omega
          · show countIter (((Event.iterationStarted (st.iteration_count + 1) ::
              (r.output.map outputItemLogs).flatten) ++ evs2) ++
              (loopGo cfg env responses fuel st2 r2 p2 q2).2) ≤ fuel + 1
            simp only [countIter_append, countIter_iterStarted_cons,
              respLogs_countIter, h4]
            omega
          · show (loopGo cfg env responses fuel st2 r2 p2 q2).1.1.error = st.error
            rw [hr3]
            exact h3x

/-- A while loop that exits with no exception and completed still false
consumed all its fuel: the iteration counter reached its bound. -/
theorem loopGo_exhaust (cfg : CUAConfig) (env : Env)
    (responses : Nat → Except String Response) :
    ∀ (fuel : Nat) (st : CUAState) (r : Response) (p q : Nat) (stf : CUAState),
      (loopGo cfg env responses fuel st r p q).1 = (stf, none) →
      stf.completed = false →
      st.completed = false →
      stf.iteration_count = st.iteration_count + fuel := by
  intro fuel
  induction fuel with
  | zero =>
    intro st r p q stf h hf hs
    unfold loopGo at h
    rw [Prod.mk.injEq] at h
    rw [← h.1]
    omega
  | succ fuel ih =>
    intro st r p q stf h hf hs
    unfold loopGo at h
    rw [if_neg (by simp [hs])] at h
    rcases hcalls : r.output.filter
        (fun item => item.type == some ("computer_call")) with _ | ⟨c, cs⟩
    · rw [hcalls] at h
      simp only [Prod.mk.injEq] at h
      rw [← h.1] at hf
      simp at hf
    · rw [hcalls] at h
      have hP := processCallsGo_fields cfg env responses cs c
        { st with iteration_count := st.iteration_count + 1 } p q
      rcases hPG : processCallsGo cfg env responses c cs
          { st with iteration_count := st.iteration_count + 1 } p q
        with ⟨st2, out2, evs2⟩
      rw [hPG] at hP
      obtain ⟨h1, h2, h3, h4⟩ := hP
      have h1x : st2.iteration_count = st.iteration_count + 1 := h1
      have h2x : st2.completed = st.completed := h2
      rcases out2 with m | ⟨r2, p2, q2⟩
      · simp only [hPG, Prod.mk.injEq] at h
        exact absurd h.2 (by simp)
      · simp only [hPG] at h
        have := ih st2 r2 p2 q2 stf h hf (by rw [h2x]; exact hs)
        omega

/-- The loop, and hence the whole invocation, never writes state.error:
only the except handler of run_task does. -/
theorem outcome_state_error (cfg : CUAConfig) (env : Env)
    (responses : Nat → Except String Response) (task : String)
    (u : Option String) (st : CUAState) (e : Option String)
    (h : (cuaRunOutcome cfg env responses task u).1 = Except.ok (st, e)) :
    st.error = none := by
  unfold cuaRunOutcome at h
  by_cases hpi : env.pageInitialized = false
  · rw [if_pos hpi] at h
    simp at h
  · rw [if_neg hpi] at h
    rcases hn : navPhase env u with m | navEvs <;> rw [hn] at h
    · simp at h
    · rcases hcap : capture_screenshot env 0 with ⟨rc, cevs⟩
      rw [hcap] at h
      rcases rc with m | shot0
      · simp at h
      · rcases hr0 : responses 0 with m | r0 <;> rw [hr0] at h
        · simp only [Prod.mk.injEq, Except.ok.injEq] at h
          rw [← h.1]
        · simp only [Except.ok.injEq] at h
          have hb := (loopGo_bounds cfg env responses cfg.max_iterations
            { previous_response_id := r0.id } r0 1 1).2.2
          rw [h] at hb
          exact hb

/-- The final state of any invocation that returns a dict counts at most
max_iterations iterations, and the trace records at most that many. -/
theorem outcome_iteration_bound (cfg : CUAConfig) (env : Env)
    (responses : Nat → Except String Response) (task : String)
    (u : Option String) :
    (∀ st e, (cuaRunOutcome cfg env responses task u).1 = Except.ok (st, e) →
      st.iteration_count ≤ cfg.max_iterations) ∧
    countIter (cuaRunOutcome cfg env responses task u).2 ≤ cfg.max_iterations := by
  unfold cuaRunOutcome
  by_cases hpi : env.pageInitialized = false
  · rw [if_pos hpi]
    constructor
    · intro st e h; simp at h
    · simp [countIter]
  · rw [if_neg hpi]
    rcases hn : navPhase env u with m | navEvs
    · constructor
      · intro st e h; simp at h
      · simp [countIter]
    · have hnn : countIter navEvs = 0 := by
        rcases u with _ | url
        · simp [navPhase] at hn
          subst hn
          simp [countIter]
        · simp only [navPhase] at hn
          rcases hg : env.goto url with _ | m <;> rw [hg] at hn
          · simp at hn
            subst hn
            simp [countIter]
          · simp at hn
      rcases hcap : capture_screenshot env 0 with ⟨rc, cevs⟩
      have hcc : countIter cevs = 0 := by
        simpa [hcap] using capture_screenshot_countIter env 0
      rcases rc with m | shot0
      · constructor
        · intro st e h; simp at h
        · rw [countIter_append, hnn, hcc]
          omega
      · rcases hr0 : responses 0 with m | r0
        · constructor
          · intro st e h
            simp only [Prod.mk.injEq, Except.ok.injEq] at h
            rw [← h.1]
            simp
          · rw [countIter_append, countIter_append, hnn, hcc]
            have : countIter [Event.log ("Starting CUA task: " ++ task),
                Event.requestSent 0 (initialRequestData cfg task shot0)] = 0 := by
              simp [countIter]
            rw [this]
            omega
        · have hb := loopGo_bounds cfg env responses cfg.max_iterations
            { previous_response_id := r0.id } r0 1 1
          constructor
          · intro st e h
            simp only [Except.ok.injEq] at h
            have hx := hb.1
            rw [h] at hx
            simpa using hx
          · rw [countIter_append]
            have h0 : countIter (navEvs ++ cevs ++
                [Event.log ("Starting CUA task: " ++ task),
                 Event.requestSent 0 (initialRequestData cfg task shot0)]) = 0 := by
              rw [countIter_append, countIter_append, hnn, hcc]
              simp [countIter]
            rw [h0]
            simpa using hb.2.1

/-- An invocation whose loop ends with no exception and completed still
false ran exactly max_iterations iterations. -/
theorem outcome_exhaust (cfg : CUAConfig) (env : Env)
    (responses : Nat → Except String Response) (task : String)
    (u : Option String) (st : CUAState)
    (h : (cuaRunOutcome cfg env responses task u).1 = Except.ok (st, none))
    (hc : st.completed = false) :
    st.iteration_count = cfg.max_iterations := by
  unfold cuaRunOutcome at h
  by_cases hpi : env.pageInitialized = false
  · rw [if_pos hpi] at h
    simp at h
  · rw [if_neg hpi] at h
    rcases hn : navPhase env u with m | navEvs <;> rw [hn] at h
    · simp at h
    · rcases hcap : capture_screenshot env 0 with ⟨rc, cevs⟩
      rw [hcap] at h
      rcases rc with m | shot0
      · simp at h
      · rcases hr0 : responses 0 with m | r0 <;> rw [hr0] at h
        · simp at h
        · simp only [Except.ok.injEq] at h
          have := loopGo_exhaust cfg env responses cfg.max_iterations
            { previous_response_id := r0.id } r0 1 1 st h hc rfl
          simpa using this

/-- Claim C1: for every task run with max_iterations N, the result field
iterations never exceeds N, and the trace records at most N
request-act-observe loop iterations, whatever the service and the browser
do. -/
theorem C1_iteration_bound (cfg : CUAConfig) (env : Env)
    (responses : Nat → Except String Response) (task : String)
    (u : Option String) :
    (∀ d, (run_task cfg env responses task u).1 = Except.ok d →
      d.iterations ≤ cfg.max_iterations) ∧
    countIter (run_task cfg env responses task u).2 ≤ cfg.max_iterations := by
  have hb := outcome_iteration_bound cfg env responses task u
  rcases hO : cuaRunOutcome cfg env responses task u with ⟨out, evs⟩
  rw [hO] at hb
  obtain ⟨hb1, hb2⟩ := hb
  unfold run_task
  rcases out with m | ⟨st, e⟩
  · simp only [hO]
    exact ⟨fun d hd => absurd hd (by simp), by simpa using hb2⟩
  · have hst := hb1 st e rfl
    rcases e with _ | m
    · simp only [hO]
      refine ⟨?_, by simpa using hb2⟩
      intro d hd
      simp only [Except.ok.injEq] at hd
      rw [← hd]
      exact hst
    · simp only [hO]
      refine ⟨?_, ?_⟩
      · intro d hd
        simp only [Except.ok.injEq] at hd
        rw [← hd]
        exact hst
      · rw [countIter_append]
        have h1 : countIter [Event.log ("CUA task failed: " ++ m)] = 0 := by
          simp [countIter]
        rw [h1]
        simp only [Nat.add_zero]
        simpa using hb2

/-- Claim C8: an invocation whose loop runs out of iterations without
completing returns completed false, error None, and a result text
reporting that the task stopped after max_iterations iterations; the
exhaustion is not reported through the error field. -/
theorem C8_exhaustion_result (cfg : CUAConfig) (env : Env)
    (responses : Nat → Except String Response) (task : String)
    (u : Option String) (st : CUAState)
    (h : (cuaRunOutcome cfg env responses task u).1 = Except.ok (st, none))
    (hc : st.completed = false) :
    (run_task cfg env responses task u).1.map
      (fun d => (d.completed, d.error, d.iterations, d.result)) =
      Except.ok (false, none, cfg.max_iterations,
        "Task stopped after " ++ toString cfg.max_iterations ++ " iterations") := by
  have hN := outcome_exhaust cfg env responses task u st h hc
  have hE := outcome_state_error cfg env responses task u st none h
  rcases hO : cuaRunOutcome cfg env responses task u with ⟨out, evs⟩
  have hout : out = Except.ok (st, none) := by
    rw [hO] at h
    exact h
  subst hout
  unfold run_task
  simp only [hO, Except.map]
  rw [hc, hE, hN]
  simp

/-- Claim C9: whenever run_task returns a dict with completed true, the
error field of that dict is None: only the except handler populates it,
and that handler always returns completed false. -/
theorem C9_completed_no_error (cfg : CUAConfig) (env : Env)
    (responses : Nat → Except String Response) (task : String)
    (u : Option String) (d : ResultDict)
    (h : (run_task cfg env responses task u).1 = Except.ok d)
    (hc : d.completed = true) : d.error = none := by
  unfold run_task at h
  rcases hO : cuaRunOutcome cfg env responses task u with ⟨out, evs⟩
  rcases out with m | ⟨st, e⟩
  · simp only [hO] at h
    exact absurd h (by simp)
  · rcases e with _ | m
    · simp only [hO] at h
      simp only [Except.ok.injEq] at h
      have h1 : (cuaRunOutcome cfg env responses task u).1 =
          Except.ok (st, none) := by rw [hO]
      have := outcome_state_error cfg env responses task u st none h1
      rw [← h]
      exact this
    · simp only [hO] at h
      simp only [Except.ok.injEq] at h
      rw [← h] at hc
      simp at hc

/-- The dict returned by the concrete one-click-then-done run. -/
def resultClick : ResultDict :=
  { result := "Task completed successfully"
    screenshots := [{ step := 1, screenshot := "1", action := some clickAction }]
    iterations := 2
    completed := true
    error := none }

/-- The final loop state of the concrete always-wait run capped at 3. -/
def stWaitFinal : CUAState :=
  { previous_response_id := some ("r1")
    screenshots := [{ step := 1, screenshot := "1", action := some waitAction },
      { step := 2, screenshot := "2", action := some waitAction },
      { step := 3, screenshot := "3", action := some waitAction }]
    completed := false
    error := none
    iteration_count := 3 }

/-- Witness for C1: the one-click run under the default cap. -/
theorem C1_iteration_bound_witness :
    resultClick.iterations ≤ cfgD.max_iterations :=
  (C1_iteration_bound cfgD benignEnv oracleClick ("t") none).1 resultClick rfl

/-- Witness for C8: max_iterations 3 against an always-wait service, the
scenario of the spec. -/
theorem C8_exhaustion_result_witness :
    (run_task cfg3 benignEnv oracleWait ("t") none).1.map
      (fun d => (d.completed, d.error, d.iterations, d.result)) =
      Except.ok (false, none, cfg3.max_iterations,
        "Task stopped after " ++ toString cfg3.max_iterations ++ " iterations") :=
  C8_exhaustion_result cfg3 benignEnv oracleWait ("t") none stWaitFinal rfl rfl

/-- Witness for C9: the completed one-click run has no error. -/
theorem C9_completed_no_error_witness : resultClick.error = none :=
  C9_completed_no_error cfgD benignEnv oracleClick ("t") none resultClick rfl rfl

/-- Counterexample to C2 as stated: in the run whose service answers one
click and then no further calls, every executed action appended exactly one
entry, yet the final history length is 1 while the iteration counter is 2,
because the terminating iteration that finds zero computer_calls increments
the counter without appending; so history length does not equal the number
of iterations performed. -/
theorem C2_history_vs_iterations_counterexample :
    (run_task cfgD benignEnv oracleClick ("t") none).1.map
      (fun d => (d.screenshots.length == d.iterations,
        d.screenshots.length, d.iterations)) =
      Except.ok (false, 1, 2) := rfl

/-- Counterexample to C4 as stated: with max_iterations 0 the while guard
fails before the first response is ever scanned, so a zero-computer_call
first response yields completed false, not the claimed completed true. -/
theorem C4_zero_iterations_counterexample :
    (run_task cfg0 benignEnv oracleNoCalls ("t") none).1.map
      (fun d => (d.completed, d.iterations)) = Except.ok (false, 0) := rfl

/-- Counterexample to C5 as stated: page.goto of the initial url sits
before the try block of run_task, so a navigation failure is neither
logged (the trace is empty) nor non-fatal: the invocation raises and
returns no result dict at all. -/
theorem C5_navigation_fatal_counterexample :
    run_task cfgD navFailEnv oracleClick ("t") (some ("http://localhost:5173")) =
      (Except.error ("net::ERR_CONNECTION_REFUSED"), []) := rfl

/-- Counterexample to C6 as stated: in a run whose first computer_call
carries a pending safety check, the check is logged and execution
proceeds to completion, but the follow-up request (request 1) that the
claim says carries the checks back has no acknowledged_safety_checks key
in its input item. -/
theorem C6_checks_not_passed_back_counterexample :
    ((sentPayloads (run_task cfgD benignEnv oracleChecked ("t") none).2).lookup 1).map
      (fun p => (inputItemAck p).isSome) = some false ∧
    hasLog (run_task cfgD benignEnv oracleChecked ("t") none).2
      ("Safety check: malicious_instructions") = true ∧
    (run_task cfgD benignEnv oracleChecked ("t") none).1.map
      (fun d => d.completed) = Except.ok true := ⟨rfl, rfl, rfl⟩

set_option maxRecDepth 8192 in
/-- Claim C10: execute_action substitutes fixed defaults for missing
parameters: click and scroll coordinates default to 0 0, the click button
defaults to left, a type action with no text types the empty string, and a
keypress with no keys presses nothing. -/
theorem C10_missing_parameter_defaults :
    execute_action benignEnv { type := some ("click") } =
      (Except.ok (), [Event.prim (Prim.click 0 0 ("left")),
        Event.log ("Clicked at (0, 0) with left button")]) ∧
    execute_action benignEnv { type := some ("scroll") } =
      (Except.ok (), [Event.prim (Prim.mouseMove 0 0),
        Event.prim (Prim.evaluate ("window.scrollBy(0, 0)")),
        Event.log ("Scrolled by (0, 0) at (0, 0)")]) ∧
    execute_action benignEnv { type := some ("type") } =
      (Except.ok (), [Event.prim (Prim.typeText ("")),
        Event.log ("Typed: ")]) ∧
    execute_action benignEnv { type := some ("keypress") } =
      (Except.ok (), [Event.log ("Pressed keys: ")]) :=
  ⟨rfl, rfl, rfl, rfl⟩

/-- The loop state after one iteration that found no computer_call. -/
def stDone (rid : Option String) : CUAState :=
  { previous_response_id := rid
    completed := true
    iteration_count := 1 }

/-- Amended C4: provided max_iterations is at least 1, an invocation whose
first response carries zero computer_call items terminates at iteration 1
with completed true, no error and an empty observation history (with
max_iterations 0 the loop never inspects the response and completed stays
false, as the counterexample shows). -/
theorem C4_first_response_no_calls (cfg : CUAConfig)
    (responses : Nat → Except String Response) (task : String)
    (u : Option String) (r0 : Response)
    (hN : 1 ≤ cfg.max_iterations)
    (h0 : responses 0 = Except.ok r0)
    (hnc : r0.output.filter (fun item => item.type == some ("computer_call")) = []) :
    (run_task cfg benignEnv responses task u).1.map
      (fun d => (d.completed, d.error, d.iterations, d.screenshots)) =
      Except.ok (true, none, 1, []) := by
  obtain ⟨k, hk⟩ := Nat.exists_eq_add_of_le hN
  have hloop : (loopGo cfg benignEnv responses cfg.max_iterations
      { previous_response_id := r0.id } r0 1 1).1 = (stDone r0.id, none) := by
    rw [hk, Nat.add_comm]
    unfold loopGo
    rw [if_neg (by simp)]
    simp only [hnc]
    simp [stDone]
  have hnav : ∃ evs, navPhase benignEnv u = Except.ok evs := by
    rcases u with _ | url
    · exact ⟨[], rfl⟩
    · exact ⟨[Event.navigated url, Event.log ("Navigated to " ++ url)], rfl⟩
  obtain ⟨navEvs, hnav⟩ := hnav
  have hout : (cuaRunOutcome cfg benignEnv responses task u).1 =
      Except.ok (stDone r0.id, none) := by
    unfold cuaRunOutcome
    rw [if_neg (by decide)]
    rw [hnav]
    rw [show capture_screenshot benignEnv 0 =
      (Except.ok ("0"), [Event.captured 0]) from rfl]
    rw [h0]
    simp only [hloop]
  rcases hO : cuaRunOutcome cfg benignEnv responses task u with ⟨out, evs⟩
  have hx : out = Except.ok (stDone r0.id, none) := by
    rw [hO] at hout
    exact hout
  subst hx
  unfold run_task
  simp only [hO, Except.map]
  simp [stDone]

/-- Witness for the amended C4: a first response with only a text item. -/
theorem C4_first_response_no_calls_witness :
    (run_task cfgD benignEnv oracleNoCalls ("t") none).1.map
      (fun d => (d.completed, d.error, d.iterations, d.screenshots)) =
      Except.ok (true, none, 1, []) :=
  C4_first_response_no_calls cfgD oracleNoCalls ("t") none respNoCalls
    (by decide) rfl rfl

/-- Amended C5: when the initial navigation succeeds it happens before the
first observation (the trace starts with the navigation, its log line, and
only then the first capture); when it fails, the raise escapes run_task,
so the failure is fatal to the invocation and nothing is logged, contrary
to the claimed best-effort behaviour (see the counterexample). -/
theorem C5_navigation_before_observation (cfg : CUAConfig) (env : Env)
    (responses : Nat → Except String Response) (task : String) (url : String)
    (s : String)
    (hpi : env.pageInitialized = true)
    (hnav : env.goto url = none)
    (hcap : env.capture 0 = Except.ok s) :
    (run_task cfg env responses task (some url)).2.take 3 =
      [Event.navigated url, Event.log ("Navigated to " ++ url),
        Event.captured 0] := by
  have hnp : navPhase env (some url) =
      Except.ok [Event.navigated url, Event.log ("Navigated to " ++ url)] := by
    simp only [navPhase, hnav]
  have hcs : capture_screenshot env 0 = (Except.ok s, [Event.captured 0]) := by
    unfold capture_screenshot
    rw [hcap]
  have htrace : ∃ rest, (cuaRunOutcome cfg env responses task (some url)).2 =
      [Event.navigated url, Event.log ("Navigated to " ++ url),
        Event.captured 0] ++ rest := by
    unfold cuaRunOutcome
    rw [if_neg (by rw [hpi]; simp)]
    rw [hnp, hcs]
    rcases hr0 : responses 0 with m | r0
    · exact ⟨[Event.log ("Starting CUA task: " ++ task),
        Event.requestSent 0 (initialRequestData cfg task s)], rfl⟩
    · refine ⟨[Event.log ("Starting CUA task: " ++ task),
        Event.requestSent 0 (initialRequestData cfg task s)] ++
        (loopGo cfg env responses cfg.max_iterations
          { previous_response_id := r0.id } r0 1 1).2, ?_⟩
      simp

  obtain ⟨rest, hrest⟩ := htrace
  unfold run_task
  rcases hO : cuaRunOutcome cfg env responses task (some url) with ⟨out, evs⟩
  rw [hO] at hrest
  have hevs : evs = [Event.navigated url, Event.log ("Navigated to " ++ url),
      Event.captured 0] ++ rest := hrest
  rcases out with m | ⟨st, e⟩
  · simp only [hO]
    rw [hevs]
    rfl
  · rcases e with _ | m
    · simp only [hO]
      rw [hevs]
      rfl
    · simp only [hO]
      rw [hevs]
      rfl

/-- Witness for the amended C5: a successful navigation under the default
environment. -/
theorem C5_navigation_before_observation_witness :
    (run_task cfgD benignEnv oracleClick ("t") (some ("http://x"))).2.take 3 =
      [Event.navigated ("http://x"),
        Event.log ("Navigated to http://x"), Event.captured 0] :=
  C5_navigation_before_observation cfgD benignEnv oracleClick ("t")
    ("http://x") ("0") rfl rfl rfl

/-- The history entry appended for one processed computer_call. -/
def mkEntry (n : Nat) (shot : String) (a : Option ActionDict) : ScreenshotEntry :=
  { step := n, screenshot := shot, action := a }

/-- Claim C7: an action descriptor whose type is not a recognised variant
is logged and treated as a no-op by execute_action, raising nothing
whatever the device environment does, and the loop still advances on such
a call: it captures a new observation, appends it to the history, and
sends the follow-up request instead of aborting. -/
theorem C7_unknown_action_advances (env : Env) (cfg : CUAConfig)
    (responses : Nat → Except String Response) (call : OutputItem)
    (st : CUAState) (p q : Nat) (r : Response) (a : ActionDict) (t : String)
    (ht : a.type = some t) (hur : t ∉ recognizedActionTypes)
    (hac : call.action = some a)
    (hr : responses q = Except.ok r) :
    execute_action env a =
      (Except.ok (), [Event.log ("Unknown action type: " ++ t)]) ∧
    processCall cfg benignEnv responses call st p q =
      ({ st with
          screenshots := st.screenshots ++
            [mkEntry st.iteration_count (toString p) call.action]
          previous_response_id := r.id },
       Except.ok (r, p + 1, q + 1),
       checkLogsOf call ++
         [Event.log ("Unknown action type: " ++ t), Event.actionExecuted a,
          Event.slept 1, Event.captured p,
          Event.requestSent q (nextRequestData cfg st.previous_response_id
            call.call_id (toString p) (benignEnv.currentUrl p))]) := by
  simp only [recognizedActionTypes, List.mem_cons, List.not_mem_nil,
    or_false, not_or] at hur
  obtain ⟨h1, h2, h3, h4, h5, h6⟩ := hur
  have hA : ∀ env' : Env, execute_action env' a =
      (Except.ok (), [Event.log ("Unknown action type: " ++ t)]) := by
    intro env'
    simp only [execute_action]
    rw [ht]
    rw [if_neg (by simp [h1]), if_neg (by simp [h2]), if_neg (by simp [h3]),
      if_neg (by simp [h4]), if_neg (by simp [h5]), if_neg (by simp [h6])]
    rfl
  refine ⟨hA env, ?_⟩
  have htruthy : a.isTruthy = true := by
    simp [ActionDict.isTruthy, ht]
  have hph : execPhase benignEnv (some a) =
      (Except.ok (), [Event.log ("Unknown action type: " ++ t),
        Event.actionExecuted a]) := by
    simp only [execPhase, htruthy, if_true, hA benignEnv]
    rfl
  unfold processCall
  rw [hac, hph]
  rw [show capture_screenshot benignEnv p =
    (Except.ok (toString p), [Event.captured p]) from rfl]
  rw [hr]
  simp [mkEntry, checkLogsOf]

/-- The unknown-typed action used by the C7 witness. -/
def hoverAction : ActionDict := { type := some ("hover") }

/-- Witness for C7 at the concrete unknown type hover. -/
theorem C7_unknown_action_advances_witness :
    execute_action benignEnv hoverAction =
      (Except.ok (), [Event.log ("Unknown action type: hover")]) :=
  (C7_unknown_action_advances benignEnv cfgD (oracleUnknown hoverAction)
    (callItem hoverAction) {} 1 1 respNoCalls hoverAction ("hover")
    rfl (by decide) rfl rfl).1

/-- Amended C6: for every processed computer_call turn with pending safety
checks, this controller logs each check before the follow-up request is
sent and never blocks on them (the action still executes and the turn
returns normally), but contrary to the claim the checks are not passed
back to the reasoning service: the follow-up request of
cua_integration.py carries no acknowledged_safety_checks key, while the
sibling request builder of openai_cua.py does carry the checks. -/
theorem C6_safety_checks_logged_not_returned (cfg : CUAConfig) (env : Env)
    (responses : Nat → Except String Response) (call : OutputItem)
    (st : CUAState) (p q : Nat) (a : ActionDict) (r : Response)
    (shot : String) (aevs : List Event) (prevRaw url2 : String)
    (hact : call.action = some a) (htru : a.isTruthy = true)
    (hexec : execute_action env a = (Except.ok (), aevs))
    (hcap : env.capture p = Except.ok shot)
    (hresp : responses q = Except.ok r) :
    processCall cfg env responses call st p q =
      ({ st with
          screenshots := st.screenshots ++
            [mkEntry st.iteration_count shot call.action]
          previous_response_id := r.id },
       Except.ok (r, p + 1, q + 1),
       checkLogsOf call ++ (aevs ++ [Event.actionExecuted a]) ++
         [Event.slept 1, Event.captured p,
          Event.requestSent q (nextRequestData cfg st.previous_response_id
            call.call_id shot (env.currentUrl p))]) ∧
    inputItemAck (nextRequestData cfg st.previous_response_id call.call_id
      shot (env.currentUrl p)) = none ∧
    inputItemAck (nextRequestDataAck prevRaw call.call_id
      call.pending_safety_checks shot url2) =
      some (Json.arr (call.pending_safety_checks.map safetyCheckJson)) := by
  refine ⟨?_, ?_, ?_⟩
  · have hph : execPhase env call.action =
        (Except.ok (), aevs ++ [Event.actionExecuted a]) := by
      rw [hact]
      simp only [execPhase, htru, if_true, hexec]
    unfold processCall
    rw [hph]
    rw [show capture_screenshot env p = (Except.ok shot, [Event.captured p])
      by unfold capture_screenshot; rw [hcap]]
    rw [hresp]
    simp [mkEntry, checkLogsOf]
  · simp [nextRequestData, inputItemAck, Json.getKey, List.lookup]
  · simp [nextRequestDataAck, inputItemAck, Json.getKey, List.lookup]

/-- Witness for the amended C6: the concrete checked click call. -/
theorem C6_safety_checks_logged_not_returned_witness :
    inputItemAck (nextRequestData cfgD none (some ("c1")) ("1")
      (benignEnv.currentUrl 1)) = none :=
  (C6_safety_checks_logged_not_returned cfgD benignEnv oracleChecked
    checkedCall {} 1 1 clickAction respNoCalls ("1")
    [Event.prim (Prim.click 100 200 ("left")),
      Event.log ("Clicked at (100, 200) with left button")]
    ("rid") ("about:blank") rfl rfl rfl rfl rfl).2.1

theorem execute_action_benign (a : ActionDict) :
    (execute_action benignEnv a).1 = Except.ok () := by
  have hrap : ∀ (t : Option String) (ps : List Prim) (s : String),
      (runActionPrims benignEnv t ps s).1 = Except.ok () := by
    intro t ps s
    have hrp : (runPrims benignEnv ps).1 = Except.ok () := by
      induction ps with
      | nil => rfl
      | cons p ps ih => exact ih
    simp only [runActionPrims, hrp]
  simp only [execute_action]
  split
  · exact hrap ..
  · split
    · exact hrap ..
    · split
      · exact hrap ..
      · split
        · exact hrap ..
        · split
          · rfl
          · split
            · rfl
            · rfl

/-- Under the benign environment the execution phase of a call always
returns without raising. -/
theorem execPhase_benign (action : Option ActionDict) :
    ∃ evs, execPhase benignEnv action = (Except.ok (), evs) := by
  rcases action with _ | a
  · exact ⟨[], rfl⟩
  · by_cases htru : a.isTruthy = true
    · rcases hE : execute_action benignEnv a with ⟨re, evs⟩
      have hok : re = Except.ok () := by
        have hx := execute_action_benign a
        rw [hE] at hx
        exact hx
      subst hok
      refine ⟨evs ++ [Event.actionExecuted a], ?_⟩
      simp only [execPhase, htru, if_true, hE]
    · refine ⟨[], ?_⟩
      simp only [execPhase]
      rw [if_neg htru]

/-- Processing one call under the benign environment when the follow-up
request fails: the screenshot entry is already appended, then the raise
carries the transport error out. -/
theorem processCall_benign_fail (cfg : CUAConfig)
    (responses : Nat → Except String Response) (call : OutputItem)
    (st : CUAState) (p q : Nat) (m : String)
    (hq : responses q = Except.error m) :
    ∃ evs, processCall cfg benignEnv responses call st p q =
      ({ st with screenshots := st.screenshots ++
          [mkEntry st.iteration_count (toString p) call.action] },
       Except.error m, evs) := by
  obtain ⟨evs1, hph⟩ := execPhase_benign call.action
  unfold processCall
  rw [hph]
  rw [show capture_screenshot benignEnv p =
    (Except.ok (toString p), [Event.captured p]) from rfl]
  rw [hq]
  exact ⟨_, rfl⟩

/-- Processing one call under the benign environment when the follow-up
request succeeds. -/
theorem processCall_benign_ok (cfg : CUAConfig)
    (responses : Nat → Except String Response) (call : OutputItem)
    (st : CUAState) (p q : Nat) (r : Response)
    (hq : responses q = Except.ok r) :
    ∃ evs, processCall cfg benignEnv responses call st p q =
      ({ st with
          screenshots := st.screenshots ++
            [mkEntry st.iteration_count (toString p) call.action]
          previous_response_id := r.id },
       Except.ok (r, p + 1, q + 1), evs) := by
  obtain ⟨evs1, hph⟩ := execPhase_benign call.action
  unfold processCall
  rw [hph]
  rw [show capture_screenshot benignEnv p =
    (Except.ok (toString p), [Event.captured p]) from rfl]
  rw [hq]
  exact ⟨_, rfl⟩

/-- The loop under the benign environment, fed single-call responses until
the request at offset dlt fails: it stops with that error, completed still
false, having appended exactly one history entry per processed call. -/
theorem loopGo_fail (cfg : CUAConfig)
    (responses : Nat → Except String Response) (m : String) :
    ∀ (dlt fuel : Nat) (st : CUAState) (r : Response) (p q : Nat),
      st.completed = false →
      dlt < fuel →
      oneCall r →
      (∀ i, i < dlt → okOneCall (responses (q + i))) →
      responses (q + dlt) = Except.error m →
      ∃ stf evs, loopGo cfg benignEnv responses fuel st r p q =
          ((stf, some m), evs) ∧
        stf.screenshots.length = st.screenshots.length + dlt + 1 ∧
        stf.completed = false ∧
        stf.error = st.error := by
  intro dlt
  induction dlt with
  | zero =>
    intro fuel st r p q hc hf hone hpre hq
    rcases fuel with _ | f
    · exact absurd hf (by omega)
    · obtain ⟨c, hcalls⟩ := hone
      have hq0 : responses q = Except.error m := by simpa using hq
      obtain ⟨evs, hpc⟩ := processCall_benign_fail cfg responses c
        { st with iteration_count := st.iteration_count + 1 } p q m hq0
      unfold loopGo
      rw [if_neg (by simp [hc])]
      simp only [hcalls]
      unfold processCallsGo
      rw [hpc]
      refine ⟨_, _, rfl, ?_, ?_, ?_⟩
      · simp [mkEntry]
      · exact hc
      · rfl
  | succ dlt ih =>
    intro fuel st r p q hc hf hone hpre hq
    rcases fuel with _ | f
    · exact absurd hf (by omega)
    · obtain ⟨c, hcalls⟩ := hone
      obtain ⟨r1, hr1, hone1⟩ := hpre 0 (by omega)
      have hq0 : responses q = Except.ok r1 := by simpa using hr1
      obtain ⟨evsX, hpc2⟩ := processCall_benign_ok cfg responses c
        { st with iteration_count := st.iteration_count + 1 } p q r1 hq0
      rcases hPC : processCall cfg benignEnv responses c
          { st with iteration_count := st.iteration_count + 1 } p q
        with ⟨st1, out1, evs1⟩
      rw [hPC] at hpc2
      simp only [Prod.mk.injEq] at hpc2
      obtain ⟨hst1, hout1, hevs1⟩ := hpc2
      have hst1c : st1.completed = false := by rw [hst1]; exact hc
      have hst1e : st1.error = st.error := by rw [hst1]
      have hst1l : st1.screenshots.length = st.screenshots.length + 1 := by
        rw [hst1]; simp [mkEntry]
      obtain ⟨stf, evsf, hL, hlen, hcf, herrf⟩ := ih f st1 r1 (p + 1) (q + 1)
        hst1c (by omega) hone1
        (fun i hi => by
          have hx := hpre (i + 1) (by omega)
          simpa [show q + (i + 1) = q + 1 + i by omega] using hx)
        (by
          rw [show q + 1 + dlt = q + (dlt + 1) by omega]
          exact hq)
      subst hout1
      unfold loopGo
      rw [if_neg (by simp [hc])]
      simp only [hcalls]
      unfold processCallsGo
      simp only [hPC, hL]
      refine ⟨stf, _, rfl, ?_, hcf, ?_⟩
      · omega
      · rw [herrf]
        exact hst1e

/-- Claim C3: when the reasoning service answers requests 0 to i-1 with
single-call responses and fails request i (the (i+1)-th request overall,
counting the initial one) with a non-2xx or transport error, run_task
returns completed false, the error populated with that failure, and an
observation history of exactly i entries: one per call executed before the
failure, and none for the failed turn, whose response is never parsed. -/
theorem C3_transport_failure (cfg : CUAConfig)
    (responses : Nat → Except String Response) (task : String)
    (u : Option String) (i : Nat) (m : String)
    (hi : i ≤ cfg.max_iterations)
    (hpre : ∀ j, j < i → okOneCall (responses j))
    (hfail : responses i = Except.error m) :
    (run_task cfg benignEnv responses task u).1.map
      (fun d => (d.completed, d.error, d.screenshots.length)) =
      Except.ok (false, some m, i) := by
  have hnav : ∃ evs, navPhase benignEnv u = Except.ok evs := by
    rcases u with _ | url
    · exact ⟨[], rfl⟩
    · exact ⟨[Event.navigated url, Event.log ("Navigated to " ++ url)], rfl⟩
  obtain ⟨navEvs, hnav⟩ := hnav
  rcases i with _ | i0
  · have hout : (cuaRunOutcome cfg benignEnv responses task u).1 =
        Except.ok (({} : CUAState), some m) := by
      unfold cuaRunOutcome
      rw [if_neg (by decide)]
      rw [hnav]
      rw [show capture_screenshot benignEnv 0 =
        (Except.ok ("0"), [Event.captured 0]) from rfl]
      rw [hfail]
    rcases hO : cuaRunOutcome cfg benignEnv responses task u with ⟨out, evs⟩
    have hx : out = Except.ok (({} : CUAState), some m) := by
      rw [hO] at hout
      exact hout
    subst hx
    unfold run_task
    simp only [hO, Except.map]
    rfl
  · obtain ⟨r0, hr0, hone0⟩ := hpre 0 (by omega)
    obtain ⟨stf, evsf, hL, hlen, hcf, herrf⟩ := loopGo_fail cfg responses m i0
      cfg.max_iterations ({ previous_response_id := r0.id } : CUAState) r0 1 1
      rfl (by omega) hone0
      (fun t ht => by
        have hx := hpre (t + 1) (by omega)
        simpa [show (1 : Nat) + t = t + 1 by omega] using hx)
      (by
        rw [show (1 : Nat) + i0 = i0 + 1 by omega]
        exact hfail)
    have hout : (cuaRunOutcome cfg benignEnv responses task u).1 =
        Except.ok (stf, some m) := by
      unfold cuaRunOutcome
      rw [if_neg (by decide)]
      rw [hnav]
      rw [show capture_screenshot benignEnv 0 =
        (Except.ok ("0"), [Event.captured 0]) from rfl]
      rw [hr0]
      simp only [hL]
    rcases hO : cuaRunOutcome cfg benignEnv responses task u with ⟨out, evs⟩
    have hx : out = Except.ok (stf, some m) := by
      rw [hO] at hout
      exact hout
    subst hx
    unfold run_task
    simp only [hO, Except.map]
    have hl2 : stf.screenshots.length = i0 + 1 := by simpa using hlen
    simp [hl2]

/-- The service of the C3 witness: one click, then a 502. -/
def oracleFailSecond : Nat → Except String Response := fun n =>
  if n = 0 then Except.ok (respOneCall clickAction)
  else Except.error ("HTTP 502")

/-- Witness for C3: the second request fails, so exactly the one executed
click is in the history. -/
theorem C3_transport_failure_witness :
    (run_task cfgD benignEnv oracleFailSecond ("t") none).1.map
      (fun d => (d.completed, d.error, d.screenshots.length)) =
      Except.ok (false, some ("HTTP 502"), 1) :=
  C3_transport_failure cfgD oracleFailSecond ("t") none 1 ("HTTP 502")
    (by decide)
    (fun j hj => by
      have hj0 : j = 0 := by omega
      subst hj0
      exact ⟨respOneCall clickAction, rfl, ⟨callItem clickAction, rfl⟩⟩)
    rfl

/-- The action recorded by a history entry when it was a truthy dict. -/
def truthyOpt (a : Option ActionDict) : Option ActionDict :=
  match a with
  | some a => if a.isTruthy then some a else none
  | none => none

theorem execPhase_traced_err (env : Env) (action : Option ActionDict)
    (e : String) (evs : List Event)
    (h : execPhase env action = (Except.error e, evs)) :
    tracedExecuted evs = [] := by
  rcases action with _ | a <;> simp only [execPhase] at h
  · simp at h
  · by_cases htru : a.isTruthy = true
    · rw [if_pos htru] at h
      rcases hE : execute_action env a with ⟨re, evs1⟩
      rw [hE] at h
      have ht := execute_action_traced env a
      rw [hE] at ht
      rcases re with m | uu
      · simp only [Prod.mk.injEq] at h
        rw [← h.2]
        exact ht
      · simp at h
    · rw [if_neg htru] at h
      simp at h

theorem execPhase_traced_ok (env : Env) (action : Option ActionDict)
    (uu : Unit) (evs : List Event)
    (h : execPhase env action = (Except.ok uu, evs)) :
    tracedExecuted evs = (truthyOpt action).toList := by
  rcases action with _ | a <;> simp only [execPhase] at h
  · simp only [Prod.mk.injEq] at h
    rw [← h.2]
    simp [tracedExecuted, truthyOpt]
  · by_cases htru : a.isTruthy = true
    · rw [if_pos htru] at h
      rcases hE : execute_action env a with ⟨re, evs1⟩
      rw [hE] at h
      have ht := execute_action_traced env a
      rw [hE] at ht
      rcases re with m | u2
      · simp at h
      · simp only [Prod.mk.injEq] at h
        rw [← h.2]
        rw [tracedExecuted_append, ht]
        simp [tracedExecuted, truthyOpt, htru]
    · rw [if_neg htru] at h
      simp only [Prod.mk.injEq] at h
      rw [← h.2]
      simp [tracedExecuted, truthyOpt, htru]

theorem tracedExecuted_slept (k : Nat) :
    tracedExecuted [Event.slept k] = [] := by simp [tracedExecuted]

theorem tracedExecuted_captured (i : Nat) :
    tracedExecuted [Event.captured i] = [] := by simp [tracedExecuted]

theorem tracedExecuted_requestSent (i : Nat) (pl : Json) :
    tracedExecuted [Event.requestSent i pl] = [] := by simp [tracedExecuted]

theorem truthyOpt_toList_filterMap (n : Nat) (s : String)
    (a : Option ActionDict) :
    List.filterMap entryExec [mkEntry n s a] = (truthyOpt a).toList := by
  rcases a with _ | a
  · simp [mkEntry, entryExec, truthyOpt]
  · by_cases htru : a.isTruthy = true <;>
      simp [mkEntry, entryExec, truthyOpt, htru]

/-- Each processed call extends the history by a batch whose truthy
actions are exactly the actions this call executed, in order. -/
theorem processCall_screens (cfg : CUAConfig) (env : Env)
    (responses : Nat → Except String Response) (call : OutputItem)
    (st : CUAState) (p q : Nat) (hcap : capturesOk env) :
    ∃ delta, (processCall cfg env responses call st p q).1.screenshots =
        st.screenshots ++ delta ∧
      tracedExecuted (processCall cfg env responses call st p q).2.2 =
        delta.filterMap entryExec := by
  obtain ⟨s, hs⟩ := hcap p
  have hcs : capture_screenshot env p = (Except.ok s, [Event.captured p]) := by
    unfold capture_screenshot
    rw [hs]
  unfold processCall
  rcases hph : execPhase env call.action with ⟨re, evs1⟩
  rcases re with m | u2
  · refine ⟨[], by simp, ?_⟩
    show tracedExecuted (checkLogsOf call ++ evs1) = List.filterMap entryExec []
    rw [tracedExecuted_append, checkLogsOf_traced,
      execPhase_traced_err env call.action m evs1 hph]
    rfl
  · rw [hcs]
    have hte := execPhase_traced_ok env call.action u2 evs1 hph
    rcases hr : responses q with m | r <;>
    · refine ⟨[mkEntry st.iteration_count s call.action], by simp [mkEntry], ?_⟩
      show tracedExecuted ((((checkLogsOf call ++ evs1) ++ [Event.slept 1]) ++
          [Event.captured p]) ++
          [Event.requestSent q (nextRequestData cfg st.previous_response_id
            call.call_id s (env.currentUrl p))]) =
        List.filterMap entryExec [mkEntry st.iteration_count s call.action]
      rw [truthyOpt_toList_filterMap]
      simp only [tracedExecuted_append, checkLogsOf_traced, hte,
        tracedExecuted_slept, tracedExecuted_captured,
        tracedExecuted_requestSent, List.append_nil, List.nil_append]

/-- The for loop over the calls of one response, batched. -/
theorem processCallsGo_screens (cfg : CUAConfig) (env : Env)
    (responses : Nat → Except String Response) (hcap : capturesOk env) :
    ∀ (rest : List OutputItem) (call : OutputItem) (st : CUAState) (p q : Nat),
      ∃ delta, (processCallsGo cfg env responses call rest st p q).1.screenshots =
          st.screenshots ++ delta ∧
        tracedExecuted (processCallsGo cfg env responses call rest st p q).2.2 =
          delta.filterMap entryExec := by
  intro rest
  induction rest with
  | nil =>
    intro call st p q
    obtain ⟨delta, h1, h2⟩ := processCall_screens cfg env responses call st p q hcap
    unfold processCallsGo
    rcases hPC : processCall cfg env responses call st p q with ⟨st1, out1, evs1⟩
    rw [hPC] at h1 h2
    rcases out1 with m | ⟨r1, p1, q1⟩ <;> exact ⟨delta, h1, h2⟩
  | cons c2 cs ih =>
    intro call st p q
    obtain ⟨delta, h1, h2⟩ := processCall_screens cfg env responses call st p q hcap
    unfold processCallsGo
    rcases hPC : processCall cfg env responses call st p q with ⟨st1, out1, evs1⟩
    rw [hPC] at h1 h2
    rcases out1 with m | ⟨r1, p1, q1⟩
    · exact ⟨delta, h1, h2⟩
    · obtain ⟨delta2, hg1, hg2⟩ := ih c2 st1 p1 q1
      refine ⟨delta ++ delta2, ?_, ?_⟩
      · rw [hg1, h1, List.append_assoc]
      · rw [tracedExecuted_append, h2, hg2, List.filterMap_append]

/-- The whole loop, batched: the history grows by exactly the entries of
the processed calls, whose truthy actions are the executed actions in
order. -/
theorem loopGo_screens (cfg : CUAConfig) (env : Env)
    (responses : Nat → Except String Response) (hcap : capturesOk env) :
    ∀ (fuel : Nat) (st : CUAState) (r : Response) (p q : Nat),
      ∃ delta, ((loopGo cfg env responses fuel st r p q).1.1).screenshots =
          st.screenshots ++ delta ∧
        tracedExecuted (loopGo cfg env responses fuel st r p q).2 =
          delta.filterMap entryExec := by
  intro fuel
  induction fuel with
  | zero =>
    intro st r p q
    exact ⟨[], by simp [loopGo], by simp [loopGo, tracedExecuted]⟩
  | succ fuel ih =>
    intro st r p q
    unfold loopGo
    by_cases hc : st.completed = true
    · rw [if_pos hc]
      exact ⟨[], by simp, by simp [tracedExecuted]⟩
    · rw [if_neg hc]
      rcases hcalls : r.output.filter
          (fun item => item.type == some ("computer_call")) with _ | ⟨c, cs⟩
      · simp only [hcalls]
        refine ⟨[], by simp, ?_⟩
        show tracedExecuted ((Event.iterationStarted (st.iteration_count + 1) ::
          (r.output.map outputItemLogs).flatten) ++
          [Event.log ("CUA task completed - no more actions")]) = []
        rw [tracedExecuted_append]
        have hx := respLogs_traced r.output
        simp [tracedExecuted] at hx ⊢
        exact hx
      · simp only [hcalls]
        obtain ⟨delta, h1, h2⟩ := processCallsGo_screens cfg env responses hcap
          cs c { st with iteration_count := st.iteration_count + 1 } p q
        rcases hPG : processCallsGo cfg env responses c cs
            { st with iteration_count := st.iteration_count + 1 } p q
          with ⟨st2, out2, evs2⟩
        rw [hPG] at h1 h2
        have h1x : st2.screenshots = st.screenshots ++ delta := h1
        rcases out2 with m | ⟨r2, p2, q2⟩
        · refine ⟨delta, h1x, ?_⟩
          show tracedExecuted ((Event.iterationStarted (st.iteration_count + 1) ::
            (r.output.map outputItemLogs).flatten) ++ evs2) =
            delta.filterMap entryExec
          rw [tracedExecuted_append]
          have hx := respLogs_traced r.output
          simp only [tracedExecuted] at hx h2 ⊢
          simp [hx, h2]
        · obtain ⟨delta2, hg1, hg2⟩ := ih st2 r2 p2 q2
          refine ⟨delta ++ delta2, ?_, ?_⟩
          · rw [hg1, h1x, List.append_assoc]
          · show tracedExecuted (((Event.iterationStarted (st.iteration_count + 1) ::
              (r.output.map outputItemLogs).flatten) ++ evs2) ++
              (loopGo cfg env responses fuel st2 r2 p2 q2).2) =
              (delta ++ delta2).filterMap entryExec
            rw [tracedExecuted_append, tracedExecuted_append]
            have hx := respLogs_traced r.output
            simp only [tracedExecuted] at hx h2 hg2 ⊢
            simp [hx, h2, hg2, List.filterMap_append]

/-- Trace-level form: when every capture succeeds, the executed actions of
a returned invocation are exactly the truthy actions of its history
entries, in order. -/
theorem outcome_screens (cfg : CUAConfig) (env : Env)
    (responses : Nat → Except String Response) (task : String)
    (u : Option String) (hcap : capturesOk env) :
    ∀ st e, (cuaRunOutcome cfg env responses task u).1 = Except.ok (st, e) →
      tracedExecuted (cuaRunOutcome cfg env responses task u).2 =
        st.screenshots.filterMap entryExec := by
  unfold cuaRunOutcome
  by_cases hpi : env.pageInitialized = false
  · rw [if_pos hpi]
    intro st e h
    simp at h
  · rw [if_neg hpi]
    rcases hn : navPhase env u with m | navEvs
    · intro st e h
      simp at h
    · have hnt : tracedExecuted navEvs = [] := by
        rcases u with _ | url
        · simp [navPhase] at hn
          subst hn
          simp [tracedExecuted]
        · simp only [navPhase] at hn
          rcases hg : env.goto url with _ | m <;> rw [hg] at hn
          · simp at hn
            subst hn
            simp [tracedExecuted]
          · simp at hn
      rcases hcs : capture_screenshot env 0 with ⟨rc, cevs⟩
      have hct : tracedExecuted cevs = [] := by
        simpa [hcs] using capture_screenshot_traced env 0
      rcases rc with m | shot0
      · intro st e h
        simp at h
      · rcases hr0 : responses 0 with m | r0
        · intro st e h
          simp only [Prod.mk.injEq, Except.ok.injEq] at h
          rw [← h.1]
          rw [tracedExecuted_append, tracedExecuted_append, hnt, hct]
          simp [tracedExecuted]
        · intro st e h
          simp only [Except.ok.injEq] at h
          obtain ⟨delta, hd1, hd2⟩ := loopGo_screens cfg env responses hcap
            cfg.max_iterations { previous_response_id := r0.id } r0 1 1
          have hst : ((loopGo cfg env responses cfg.max_iterations
              { previous_response_id := r0.id } r0 1 1).1.1) = st := by
            rw [h]
          simp only [tracedExecuted_append, hnt, hct, hd2]
          have hx : tracedExecuted
              [Event.log ("Starting CUA task: " ++ task),
               Event.requestSent 0 (initialRequestData cfg task shot0)] = [] := by
            simp [tracedExecuted]
          rw [hx]
          rw [← hst, hd1]
          simp

/-- Amended C2: whenever observation capture itself succeeds, every
successfully executed action appends exactly one history entry, in
execution order: the executed-action trace equals the truthy actions of
the returned history, entry by entry (an entry appended for a call whose
action dict is missing or empty executed nothing, and executed actions
never outnumber entries). The history length equals the number of
processed computer_calls, not the iteration counter, which the
terminating no-call iteration still increments (see the counterexample). -/
theorem C2_history_per_action (cfg : CUAConfig) (env : Env)
    (responses : Nat → Except String Response) (task : String)
    (u : Option String) (d : ResultDict)
    (hcap : capturesOk env)
    (h : (run_task cfg env responses task u).1 = Except.ok d) :
    tracedExecuted (run_task cfg env responses task u).2 =
      d.screenshots.filterMap entryExec ∧
    (tracedExecuted (run_task cfg env responses task u).2).length ≤
      d.screenshots.length := by
  rcases hO : cuaRunOutcome cfg env responses task u with ⟨out, evs⟩
  have hsc := outcome_screens cfg env responses task u hcap
  rw [hO] at hsc
  unfold run_task at h ⊢
  rcases out with m | ⟨st, e⟩
  · simp only [hO] at h
    exact absurd h (by simp)
  · rcases e with _ | m
    · simp only [hO] at h ⊢
      simp only [Except.ok.injEq] at h
      have hx := hsc st none rfl
      constructor
      · rw [← h]
        exact hx
      · rw [← h]
        rw [hx]
        exact List.length_filterMap_le ..
    · simp only [hO] at h ⊢
      simp only [Except.ok.injEq] at h
      have hx := hsc st (some m) rfl
      have hy : tracedExecuted (evs ++ [Event.log ("CUA task failed: " ++ m)]) =
          st.screenshots.filterMap entryExec := by
        rw [tracedExecuted_append, hx]
        simp [tracedExecuted]
      constructor
      · rw [← h]
        exact hy
      · rw [← h]
        rw [hy]
        exact List.length_filterMap_le ..

/-- Witness for the amended C2: the one-click run, where the single
executed click is the single truthy history action. -/
theorem C2_history_per_action_witness :
    tracedExecuted (run_task cfgD benignEnv oracleClick ("t") none).2 =
      resultClick.screenshots.filterMap entryExec :=
  (C2_history_per_action cfgD benignEnv oracleClick ("t") none resultClick
    (fun n => ⟨toString n, rfl⟩) rfl).1

end WebEvalAgent
